import Mathlib

/-!
Shallow embedding of `cliplm` (src/src/main.rs), a CLI that reads an image
from the clipboard, base64-encodes it, and talks to a llama.cpp-style
`/completion` HTTP endpoint, optionally in an interactive loop.

External effects (clipboard, PNG encoder, base64, filesystem, HTTP server,
stdin/stdout) are supplied by an `Env` record; the program is interpreted as
a pure function producing the list of performed effects (`Event`) together
with the process outcome.  The interactive loop is run on explicit fuel:
`RunResult.running` means the loop is still going after that many
iterations.
-/

namespace Cliplm

/-- Opaque carrier for an `f32` value: a 32-bit pattern that the program
only ever stores and serializes, never computes with. -/
structure F32 where
  bits : Nat
deriving DecidableEq, Repr

/-- Parsed command-line arguments (struct `Args`).  `host` is the display
form of the parsed `Ipv4Addr`; clap parsing itself is external. -/
structure Args where
  host : String
  port : Nat
  prompt : String
  prompt_file : Option String
  interactive : Bool
  copy_back : Bool
  temperature : F32
  n_predict : Nat
deriving DecidableEq, Repr

/-- clap `default_value` of `--prompt` in src/main.rs (the leading
backslash-newline in the Rust literal elides the first line break). -/
def defaultPrompt : String :=
  "Assistant is skillful in writing long and detailed description to images.\nUSER: [img-1] Describe the image.\nASSISTANT:"

/-- Raw clipboard image as arboard returns it: dimensions plus RGBA bytes. -/
structure ClipImage where
  width : Nat
  height : Nat
  bytes : List Nat
deriving DecidableEq, Repr

/-- struct `ImData`: one base64 payload with its numeric id. -/
structure ImData where
  data : String
  id : Nat
deriving DecidableEq, Repr

/-- struct `Request`: the JSON body POSTed to `/completion`. -/
structure Request where
  prompt : String
  temperature : F32
  n_predict : Nat
  cache_prompt : Bool
  image_data : List ImData
  stop : List String
deriving DecidableEq, Repr

/-- Error values propagated by `?` in `main`; the variant records which
stage failed. -/
inductive Err where
  | clipboardNew
  | clipboardGet
  | encodeImage
  | fileRead (path : String)
  | network
  | httpStatus (code : Nat)
  | jsonParse
  | ioFlush
  | ioRead
  | clipboardSet
deriving DecidableEq, Repr

/-- A JSON value, for modelling response bodies. -/
inductive Json where
  | str (s : String)
  | num (n : Int)
  | bool (b : Bool)
  | null
  | arr (elems : List Json)
  | obj (fields : List (String × Json))

/-- Outcome of one HTTP exchange as seen by the client: either the
connection failed, or a response with a status code arrived whose body is
`some` JSON value or `none` when the bytes are not valid JSON. -/
inductive HttpOutcome where
  | connFail
  | reply (status : Nat) (body : Option Json)

/-- The external world: results of every effectful call the program makes.
`http`, `readLine` and `flushOk` take the index of the call so successive
calls may be answered differently.  `readLine` returns what
`read_line` appends to the buffer: the line including its trailing
newline, or the empty string at end of input. -/
structure Env where
  clipboardNew : Except Err Unit
  getImage : Except Err ClipImage
  encodePng : ClipImage → Except Err (List Nat)
  base64 : List Nat → String
  readFile : String → Except Err String
  http : Nat → Request → HttpOutcome
  readLine : Nat → Except Err String
  flushOk : Nat → Bool
  setText : String → Except Err Unit

/-- One observable effect performed by the program. -/
inductive Event where
  | clipboardNew
  | getImage
  | encodePng
  | readFile (path : String)
  | httpPost (url : String) (req : Request)
  | stdoutWrite (s : String)
  | stdoutFlush
  | stdinReadLine
  | clipboardSet (text : String)
deriving DecidableEq, Repr

/-- Final state of a run: clean exit (`main` returned `Ok`), exit on a
propagated error, or the interactive loop still running when the fuel ran
out. -/
inductive RunResult where
  | exited0
  | exitedErr (e : Err)
  | running (req : Request)
deriving DecidableEq, Repr

/-- Exit status of a finished process: 0 when `main` returned `Ok`, 1 when
an `anyhow` error was propagated (printed to stderr by the runtime). -/
def exitCode : RunResult → Option Nat
  | .exited0 => some 0
  | .exitedErr _ => some 1
  | .running _ => none

/-- `format!("http://{}:{}/completion", args.host, args.port)`. -/
def endpointUrl (a : Args) : String :=
  "http://" ++ a.host ++ ":" ++ toString a.port ++ "/completion"

/-- First binding of a key in a JSON object. -/
def lookupField : List (String × Json) → String → Option Json
  | [], _ => none
  | (k, v) :: rest, key => if k = key then some v else lookupField rest key

/-- serde deserialization of `struct Response { content: String }`: the
body must be an object whose `content` field is a string; all other fields
are ignored. -/
def parseResponse : Json → Except Err String
  | .obj fields =>
    match lookupField fields "content" with
    | some (.str s) => .ok s
    | _ => .error .jsonParse
  | _ => .error .jsonParse

/-- Body framing of RFC 7230 section 3.3.3 as ureq implements it: a
response with status 204 or 304 never delivers a body to the caller,
whatever the wire carried. -/
def framedBody (status : Nat) (body : Option Json) : Option Json :=
  if status = 204 ∨ status = 304 then none else body

/-- ureq 2.x `send_json` semantics: an error on transport failure and on
any response status of 400 or above; every other delivered response is
handed on for body parsing, its body subject to the 204/304 framing rule. -/
def sendJson : HttpOutcome → Except Err (Option Json)
  | .connFail => .error .network
  | .reply status body =>
    if 400 ≤ status then .error (.httpStatus status) else .ok (framedBody status body)

/-- ureq `into_json::<Response>()`: fails when the body is not valid JSON,
otherwise deserializes it. -/
def intoJson : Option Json → Except Err String
  | none => .error .jsonParse
  | some j => parseResponse j

/-- Net result of one completion call on a given HTTP outcome. -/
def parseOutcome (o : HttpOutcome) : Except Err String :=
  match sendJson o with
  | .error e => .error e
  | .ok body => intoJson body

/-- The `request` closure in `main`: one POST of the JSON request to the
captured endpoint, then parse of the response body. -/
def requestCall (env : Env) (idx : Nat) (url : String) (req : Request) :
    List Event × Except Err String :=
  ([.httpPost url req], parseOutcome (env.http idx req))

/-- Lines 69-72 of main.rs:
`args.prompt_file.map(std::fs::read_to_string).transpose()?.unwrap_or(args.prompt)`. -/
def resolvePrompt (env : Env) (a : Args) : List Event × Except Err String :=
  match a.prompt_file with
  | none => ([], .ok a.prompt)
  | some p => ([.readFile p], env.readFile p)

/-- Value part of `resolvePrompt`. -/
def resolveOutcome (env : Env) (a : Args) : Except Err String :=
  (resolvePrompt env a).2

/-- Initial `Request` literal built in `main` (lines 74-81). -/
def initialRequest (a : Args) (b64 : String) (prompt : String) : Request :=
  { prompt := prompt
    temperature := a.temperature
    n_predict := a.n_predict
    cache_prompt := true
    image_data := [{ data := b64, id := 1 }]
    stop := ["USER:"] }

/-- `format!("USER: {line}\nASSISTANT:")`; `line` is whatever `read_line`
produced, trailing newline included. -/
def userTurn (line : String) : String :=
  "USER: " ++ line ++ "\nASSISTANT:"

/-- One iteration of the interactive loop (lines 100-108): print the
`USER: ` prompt, flush, read a line, extend the transcript with the
formatted turn, make the HTTP call (call number `i + 1`), print the
response, append it to the transcript. -/
def loopStep (env : Env) (url : String) (i : Nat) (req : Request) :
    List Event × Except Err Request :=
  if env.flushOk i then
    match env.readLine i with
    | .error e =>
      ([.stdoutWrite "USER: ", .stdoutFlush, .stdinReadLine], .error e)
    | .ok line =>
      match parseOutcome (env.http (i + 1) { req with prompt := req.prompt ++ userTurn line }) with
      | .error e =>
        ([.stdoutWrite "USER: ", .stdoutFlush, .stdinReadLine,
            .httpPost url { req with prompt := req.prompt ++ userTurn line }],
          .error e)
      | .ok resp =>
        ([.stdoutWrite "USER: ", .stdoutFlush, .stdinReadLine,
            .httpPost url { req with prompt := req.prompt ++ userTurn line },
            .stdoutWrite ("ASSISTANT: " ++ resp ++ "\n")],
          .ok { req with prompt := (req.prompt ++ userTurn line) ++ resp })
  else
    ([.stdoutWrite "USER: ", .stdoutFlush], .error .ioFlush)

/-- The interactive loop run for `fuel` iterations, starting at iteration
`i`; in the source the loop is infinite, so exhausting the fuel leaves the
run in state `running`. -/
def loopRun (env : Env) (url : String) : Nat → Nat → Request → List Event × RunResult
  | 0, _, req => ([], .running req)
  | fuel + 1, i, req =>
    match loopStep env url i req with
    | (ev, .error e) => (ev, .exitedErr e)
    | (ev, .ok req1) =>
      let next := loopRun env url fuel (i + 1) req1
      (ev ++ next.1, next.2)

/-- Tail of `main` after the initial POST has been issued (lines 92-114):
handle the outcome of the first completion call, print prompt and response,
append the response to the transcript, then run the interactive loop, or do
the optional copy-back, or exit cleanly.  Returned events follow the
initial `httpPost` event. -/
def postInitial (env : Env) (a : Args) (fuel : Nat) (req : Request) :
    List Event × RunResult :=
  match parseOutcome (env.http 0 req) with
  | .error e => ([], .exitedErr e)
  | .ok resp =>
    if a.interactive then
      (Event.stdoutWrite (req.prompt ++ resp ++ "\n")
          :: (loopRun env (endpointUrl a) fuel 0 { req with prompt := req.prompt ++ resp }).1,
        (loopRun env (endpointUrl a) fuel 0 { req with prompt := req.prompt ++ resp }).2)
    else if a.copy_back then
      match env.setText resp with
      | .error e =>
        ([.stdoutWrite (req.prompt ++ resp ++ "\n"), .clipboardSet resp], .exitedErr e)
      | .ok _ =>
        ([.stdoutWrite (req.prompt ++ resp ++ "\n"), .clipboardSet resp], .exited0)
    else
      ([.stdoutWrite (req.prompt ++ resp ++ "\n")], .exited0)

/-- Whole program (`fn main`), lines 51-115 of main.rs: clipboard handle,
clipboard image, PNG encode, base64, prompt resolution, initial request,
then `postInitial` for everything after the first POST. -/
def run (env : Env) (a : Args) (fuel : Nat) : List Event × RunResult :=
  match env.clipboardNew with
  | .error e => ([.clipboardNew], .exitedErr e)
  | .ok _ =>
  match env.getImage with
  | .error e => ([.clipboardNew, .getImage], .exitedErr e)
  | .ok img =>
  match env.encodePng img with
  | .error e => ([.clipboardNew, .getImage, .encodePng], .exitedErr e)
  | .ok png =>
  match (resolvePrompt env a).2 with
  | .error e =>
    ([Event.clipboardNew, .getImage, .encodePng] ++ (resolvePrompt env a).1, .exitedErr e)
  | .ok prompt =>
    ((([Event.clipboardNew, .getImage, .encodePng] ++ (resolvePrompt env a).1)
        ++ [.httpPost (endpointUrl a) (initialRequest a (env.base64 png) prompt)])
      ++ (postInitial env a fuel (initialRequest a (env.base64 png) prompt)).1,
      (postInitial env a fuel (initialRequest a (env.base64 png) prompt)).2)

/-- Prompts of the requests sent over HTTP, in order. -/
def sentPrompts (tr : List Event) : List String :=
  tr.filterMap fun e =>
    match e with
    | .httpPost _ r => some r.prompt
    | _ => none

/-- Full requests sent over HTTP, in order. -/
def sentRequests (tr : List Event) : List Request :=
  tr.filterMap fun e =>
    match e with
    | .httpPost _ r => some r
    | _ => none

/-- Strings written to standard output, in order. -/
def stdoutWrites (tr : List Event) : List String :=
  tr.filterMap fun e =>
    match e with
    | .stdoutWrite s => some s
    | _ => none

/-- Texts written to the clipboard, in order. -/
def clipboardSets (tr : List Event) : List String :=
  tr.filterMap fun e =>
    match e with
    | .clipboardSet s => some s
    | _ => none

/-- Tests whether an event is one of the kinds the interactive loop can
emit: console traffic or an HTTP POST. -/
def Event.isConsoleOrHttp : Event → Bool
  | .stdoutWrite _ => true
  | .stdoutFlush => true
  | .stdinReadLine => true
  | .httpPost _ _ => true
  | _ => false

/-- Tests for the clipboard-handle event. -/
def Event.isClipboardNew : Event → Bool
  | .clipboardNew => true
  | _ => false

/-- Tests for the clipboard-image event. -/
def Event.isGetImage : Event → Bool
  | .getImage => true
  | _ => false

/-- Tests for the PNG-encoding event. -/
def Event.isEncodePng : Event → Bool
  | .encodePng => true
  | _ => false

/-- Tests for a file-read event. -/
def Event.isReadFile : Event → Bool
  | .readFile _ => true
  | _ => false

/-- Tests for a clipboard-write event. -/
def Event.isClipboardSet : Event → Bool
  | .clipboardSet _ => true
  | _ => false

/-- Value of the whole pipeline up to and including the first completion
call: the first error among clipboard handle, clipboard image, PNG encode,
prompt resolution and the initial HTTP exchange, or the content of the first response. -/
def initialOutcome (env : Env) (a : Args) : Except Err String :=
  match env.clipboardNew with
  | .error e => .error e
  | .ok _ =>
  match env.getImage with
  | .error e => .error e
  | .ok img =>
  match env.encodePng img with
  | .error e => .error e
  | .ok png =>
  match resolveOutcome env a with
  | .error e => .error e
  | .ok prompt => parseOutcome (env.http 0 (initialRequest a (env.base64 png) prompt))

/-- Transcript values reached after each completed loop iteration, for as
many iterations as the fuel allows and the loop keeps succeeding. -/
def loopTranscripts (env : Env) (url : String) : Nat → Nat → Request → List String
  | 0, _, _ => []
  | fuel + 1, i, req =>
    match loopStep env url i req with
    | (_, .error _) => []
    | (_, .ok req1) => req1.prompt :: loopTranscripts env url fuel (i + 1) req1

/-- Sample clipboard image used by the concrete environments below. -/
def okImage : ClipImage := { width := 1, height := 1, bytes := [0, 0, 0, 0] }

/-- Concrete environment in which every effect succeeds: the server answers
call `i` with content `R<i>`, stdin yields the line `hello`, and
`prompt.txt` is the one readable file. -/
def okEnv : Env :=
  { clipboardNew := .ok ()
    getImage := .ok okImage
    encodePng := fun _ => .ok [1, 2, 3]
    base64 := fun _ => "QUJD"
    readFile := fun p => if p = "prompt.txt" then .ok "FILETEXT" else .error (.fileRead p)
    http := fun i _ => .reply 200 (some (.obj [("content", .str ("R" ++ toString i))]))
    readLine := fun _ => .ok "hello\n"
    flushOk := fun _ => true
    setText := fun _ => .ok () }

/-- Concrete arguments: the clap defaults except for a one-character inline
prompt. -/
def okArgs : Args :=
  { host := "127.0.0.1", port := 7001, prompt := "P", prompt_file := none,
    interactive := false, copy_back := false, temperature := ⟨0⟩,
    n_predict := 1024 }

/-- Environment in which standard input is at end of input: `read_line`
then succeeds with zero bytes read, leaving the cleared buffer empty. -/
def eofEnv : Env := { okEnv with readLine := fun _ => .ok "" }

/-- Environment in which the clipboard holds no image and the prompt file
is unreadable as well. -/
def clipErrEnv : Env :=
  { okEnv with
    getImage := .error .clipboardGet
    readFile := fun p => .error (.fileRead p) }

/-- Environment in which the clipboard handle cannot be opened. -/
def newErrEnv : Env := { okEnv with clipboardNew := .error .clipboardNew }

/-- Environment whose server answers 307 Temporary Redirect with a JSON
body carrying a content field.  ureq 2.x does not follow 307/308 for a
POST (the body cannot be replayed), so this response reaches the caller
unchanged, and a 307 may carry a body. -/
def tempRedirectEnv : Env :=
  { okEnv with http := fun _ _ => .reply 307 (some (.obj [("content", .str "X")])) }

/-- Environment whose server answers 500 with an unparseable body. -/
def serverErrEnv : Env := { okEnv with http := fun _ _ => .reply 500 none }

@[simp]
theorem sentPrompts_append (l₁ l₂ : List Event) :
    sentPrompts (l₁ ++ l₂) = sentPrompts l₁ ++ sentPrompts l₂ :=
  List.filterMap_append l₁ l₂ _

@[simp]
theorem sentRequests_append (l₁ l₂ : List Event) :
    sentRequests (l₁ ++ l₂) = sentRequests l₁ ++ sentRequests l₂ :=
  List.filterMap_append l₁ l₂ _

@[simp]
theorem stdoutWrites_append (l₁ l₂ : List Event) :
    stdoutWrites (l₁ ++ l₂) = stdoutWrites l₁ ++ stdoutWrites l₂ :=
  List.filterMap_append l₁ l₂ _

@[simp]
theorem clipboardSets_append (l₁ l₂ : List Event) :
    clipboardSets (l₁ ++ l₂) = clipboardSets l₁ ++ clipboardSets l₂ :=
  List.filterMap_append l₁ l₂ _

/-- Shape of a run once the three clipboard/encoder stages and prompt
resolution have succeeded. -/
theorem run_shape (env : Env) (a : Args) (fuel : Nat) (img : ClipImage)
    (png : List Nat) (prompt : String)
    (h1 : env.clipboardNew = .ok ()) (h2 : env.getImage = .ok img)
    (h3 : env.encodePng img = .ok png)
    (h4 : resolveOutcome env a = .ok prompt) :
    run env a fuel =
      ((([Event.clipboardNew, .getImage, .encodePng] ++ (resolvePrompt env a).1)
          ++ [.httpPost (endpointUrl a) (initialRequest a (env.base64 png) prompt)])
        ++ (postInitial env a fuel (initialRequest a (env.base64 png) prompt)).1,
       (postInitial env a fuel (initialRequest a (env.base64 png) prompt)).2) := by
  unfold run
  rw [h1]
  dsimp only
  rw [h2]
  dsimp only
  rw [h3]
  dsimp only
  rw [show (resolvePrompt env a).2 = .ok prompt from h4]

/-- Failing to open the clipboard handle aborts at once. -/
theorem run_clipboardNewErr (env : Env) (a : Args) (fuel : Nat) (e : Err)
    (h : env.clipboardNew = .error e) :
    run env a fuel = ([.clipboardNew], .exitedErr e) := by
  unfold run
  rw [h]

/-- Failing to read the clipboard image aborts before anything else. -/
theorem run_getImageErr (env : Env) (a : Args) (fuel : Nat) (e : Err)
    (h1 : env.clipboardNew = .ok ()) (h : env.getImage = .error e) :
    run env a fuel = ([.clipboardNew, .getImage], .exitedErr e) := by
  unfold run
  rw [h1]
  dsimp only
  rw [h]

/-- Failing to encode the image aborts before prompt resolution. -/
theorem run_encodeErr (env : Env) (a : Args) (fuel : Nat) (img : ClipImage)
    (e : Err) (h1 : env.clipboardNew = .ok ()) (h2 : env.getImage = .ok img)
    (h : env.encodePng img = .error e) :
    run env a fuel = ([.clipboardNew, .getImage, .encodePng], .exitedErr e) := by
  unfold run
  rw [h1]
  dsimp only
  rw [h2]
  dsimp only
  rw [h]

/-- Failing prompt resolution aborts before the first HTTP call. -/
theorem run_resolveErr (env : Env) (a : Args) (fuel : Nat) (img : ClipImage)
    (png : List Nat) (e : Err)
    (h1 : env.clipboardNew = .ok ()) (h2 : env.getImage = .ok img)
    (h3 : env.encodePng img = .ok png)
    (h4 : resolveOutcome env a = .error e) :
    run env a fuel =
      ([Event.clipboardNew, .getImage, .encodePng] ++ (resolvePrompt env a).1,
        .exitedErr e) := by
  unfold run
  rw [h1]
  dsimp only
  rw [h2]
  dsimp only
  rw [h3]
  dsimp only
  rw [show (resolvePrompt env a).2 = .error e from h4]

/-- A successful loop iteration read one line, posted the transcript
extended by the formatted turn, got a response, and appended it. -/
theorem loopStep_ok_shape (env : Env) (url : String) (i : Nat)
    (req req' : Request) (ev : List Event)
    (h : loopStep env url i req = (ev, .ok req')) :
    ∃ line resp,
      env.flushOk i = true ∧ env.readLine i = .ok line ∧
      parseOutcome (env.http (i + 1) { req with prompt := req.prompt ++ userTurn line })
        = .ok resp ∧
      req' = { req with prompt := (req.prompt ++ userTurn line) ++ resp } ∧
      ev = [.stdoutWrite "USER: ", .stdoutFlush, .stdinReadLine,
            .httpPost url { req with prompt := req.prompt ++ userTurn line },
            .stdoutWrite ("ASSISTANT: " ++ resp ++ "\n")] := by
  unfold loopStep at h
  split at h
  · rename_i hf
    split at h
    · exact absurd h (by simp)
    · rename_i line hline
      split at h
      · exact absurd h (by simp)
      · rename_i resp hresp
        injection h with hev hok
        injection hok with hreq
        exact ⟨line, resp, hf, hline, hresp, hreq.symm, hev.symm⟩
  · exact absurd h (by simp)

/-- A failing loop iteration stopped at the flush, at the read, or at the
HTTP call, having emitted the corresponding event lists. -/
theorem loopStep_err_shape (env : Env) (url : String) (i : Nat)
    (req : Request) (e : Err) (ev : List Event)
    (h : loopStep env url i req = (ev, .error e)) :
    ev = [.stdoutWrite "USER: ", .stdoutFlush] ∨
    ev = [.stdoutWrite "USER: ", .stdoutFlush, .stdinReadLine] ∨
    ∃ line, env.readLine i = .ok line ∧
      ev = [.stdoutWrite "USER: ", .stdoutFlush, .stdinReadLine,
            .httpPost url { req with prompt := req.prompt ++ userTurn line }] := by
  unfold loopStep at h
  split at h
  · split at h
    · injection h with hev _
      exact .inr (.inl hev.symm)
    · rename_i line hline
      split at h
      · injection h with hev _
        exact .inr (.inr ⟨line, hline, hev.symm⟩)
      · exact absurd h (by simp)
  · injection h with hev _
    exact .inl hev.symm

/-- Every event the interactive loop emits is console traffic or an HTTP
POST. -/
theorem loopRun_events (env : Env) (url : String) (fuel : Nat) :
    ∀ (i : Nat) (req : Request),
      ∀ e ∈ (loopRun env url fuel i req).1, e.isConsoleOrHttp = true := by
  induction fuel with
  | zero =>
    intro i req e he
    simp [loopRun] at he
  | succ n ih =>
    intro i req e he
    unfold loopRun at he
    revert he
    cases hstep : loopStep env url i req with
    | mk ev r =>
      cases r with
      | error er =>
        intro he
        dsimp only at he
        rcases loopStep_err_shape env url i req er ev hstep with h | h | ⟨line, _, h⟩ <;>
          subst h <;> (simp at he; rcases he with rfl | rfl | rfl | rfl <;> rfl)
      | ok req1 =>
        intro he
        dsimp only at he
        obtain ⟨line, resp, _, _, _, _, hev⟩ :=
          loopStep_ok_shape env url i req req1 ev hstep
        subst hev
        rw [List.mem_append] at he
        rcases he with he | he
        · simp at he
          rcases he with rfl | rfl | rfl | rfl | rfl <;> rfl
        · exact ih (i + 1) req1 e he

/-- The interactive loop never produces a clean exit: it either errors out
or is still running when the fuel ends. -/
theorem loopRun_ne_exited0 (env : Env) (url : String) (fuel : Nat) :
    ∀ (i : Nat) (req : Request), (loopRun env url fuel i req).2 ≠ .exited0 := by
  induction fuel with
  | zero => intro i req; simp [loopRun]
  | succ n ih =>
    intro i req
    unfold loopRun
    cases hstep : loopStep env url i req with
    | mk ev r =>
      cases r with
      | error er => simp
      | ok req1 =>
        dsimp only
        exact ih (i + 1) req1

/-- When the initial call fails, nothing after it happens. -/
theorem postInitial_err (env : Env) (a : Args) (fuel : Nat) (req : Request)
    (e : Err) (h : parseOutcome (env.http 0 req) = .error e) :
    postInitial env a fuel req = ([], .exitedErr e) := by
  unfold postInitial
  rw [h]

/-- When the initial call succeeds, the first event after it is the echo of
prompt and response, and everything later is console traffic, HTTP posts or
a clipboard write of that same response. -/
theorem postInitial_ok_events (env : Env) (a : Args) (fuel : Nat)
    (req : Request) (r0 : String)
    (h : parseOutcome (env.http 0 req) = .ok r0) :
    ∃ rest, (postInitial env a fuel req).1 =
      Event.stdoutWrite (req.prompt ++ r0 ++ "\n") :: rest ∧
      ∀ e ∈ rest, e.isConsoleOrHttp = true ∨ e = .clipboardSet r0 := by
  unfold postInitial
  rw [h]
  dsimp only
  split
  · exact ⟨_, rfl, fun e he => .inl (loopRun_events env (endpointUrl a) fuel 0 _ e he)⟩
  · split
    · split
      · refine ⟨[.clipboardSet r0], rfl, ?_⟩
        intro e he
        simp at he
        subst he
        exact .inr rfl
      · refine ⟨[.clipboardSet r0], rfl, ?_⟩
        intro e he
        simp at he
        subst he
        exact .inr rfl
    · exact ⟨[], rfl, by simp⟩

/-- Requests posted by the loop keep every field of the starting request
except the growing prompt. -/
theorem loopRun_requests_meta (env : Env) (url : String) (fuel : Nat) :
    ∀ (i : Nat) (req : Request),
      ∀ r ∈ sentRequests (loopRun env url fuel i req).1,
        r.temperature = req.temperature ∧ r.n_predict = req.n_predict ∧
        r.cache_prompt = req.cache_prompt ∧ r.image_data = req.image_data ∧
        r.stop = req.stop := by
  induction fuel with
  | zero =>
    intro i req r hr
    simp [loopRun, sentRequests] at hr
  | succ n ih =>
    intro i req r hr
    unfold loopRun at hr
    revert hr
    cases hstep : loopStep env url i req with
    | mk ev res =>
      cases res with
      | error er =>
        intro hr
        dsimp only at hr
        rcases loopStep_err_shape env url i req er ev hstep with h | h | ⟨line, _, h⟩ <;>
          subst h <;> simp [sentRequests] at hr
        subst hr
        exact ⟨rfl, rfl, rfl, rfl, rfl⟩
      | ok req1 =>
        intro hr
        dsimp only at hr
        obtain ⟨line, resp, _, _, _, hreq1, hev⟩ :=
          loopStep_ok_shape env url i req req1 ev hstep
        subst hev
        rw [sentRequests_append] at hr
        rw [List.mem_append] at hr
        rcases hr with hr | hr
        · simp [sentRequests] at hr
          subst hr
          exact ⟨rfl, rfl, rfl, rfl, rfl⟩
        · have := ih (i + 1) req1 r hr
          rw [hreq1] at this
          exact this

/-- Helper: shifting the base of an append-growth chain backwards. -/
theorem chainAppend_weaken (a b s : String) (l : List String)
    (hb : b = a ++ s)
    (h : List.Chain (fun t t' => ∃ u, t' = t ++ u) b l) :
    List.Chain (fun t t' => ∃ u, t' = t ++ u) a l := by
  cases h with
  | nil => exact .nil
  | cons hrel hchain =>
    obtain ⟨u, hu⟩ := hrel
    exact .cons ⟨s ++ u, by rw [hu, hb, String.append_assoc]⟩ hchain

/-- Each prompt the loop posts extends the previous transcript. -/
theorem loopRun_sentPrompts_chain (env : Env) (url : String) (fuel : Nat) :
    ∀ (i : Nat) (req : Request),
      List.Chain (fun t t' => ∃ s, t' = t ++ s) req.prompt
        (sentPrompts (loopRun env url fuel i req).1) := by
  induction fuel with
  | zero =>
    intro i req
    simp [loopRun, sentPrompts]
  | succ n ih =>
    intro i req
    unfold loopRun
    cases hstep : loopStep env url i req with
    | mk ev res =>
      cases res with
      | error er =>
        dsimp only
        rcases loopStep_err_shape env url i req er ev hstep with h | h | ⟨line, _, h⟩ <;>
          subst h <;> simp [sentPrompts]
      | ok req1 =>
        dsimp only
        obtain ⟨line, resp, _, _, _, hreq1, hev⟩ :=
          loopStep_ok_shape env url i req req1 ev hstep
        subst hev
        subst hreq1
        rw [sentPrompts_append]
        have hrec := ih (i + 1) { req with prompt := (req.prompt ++ userTurn line) ++ resp }
        simp only [sentPrompts, List.filterMap_cons, List.filterMap_nil] at hrec ⊢
        exact .cons ⟨userTurn line, rfl⟩ (chainAppend_weaken _ _ resp _ rfl hrec)

/-- Each completed loop iteration appends exactly one formatted user turn
followed by one response to the transcript. -/
theorem loopTranscripts_chain (env : Env) (url : String) (fuel : Nat) :
    ∀ (i : Nat) (req : Request),
      List.Chain (fun t t' => ∃ line resp, t' = t ++ (userTurn line ++ resp))
        req.prompt (loopTranscripts env url fuel i req) := by
  induction fuel with
  | zero =>
    intro i req
    simp [loopTranscripts]
  | succ n ih =>
    intro i req
    unfold loopTranscripts
    cases hstep : loopStep env url i req with
    | mk ev res =>
      cases res with
      | error er => exact .nil
      | ok req1 =>
        dsimp only
        obtain ⟨line, resp, _, _, _, hreq1, _⟩ :=
          loopStep_ok_shape env url i req req1 ev hstep
        refine .cons ⟨line, resp, ?_⟩ (ih (i + 1) req1)
        rw [hreq1]
        exact (String.append_assoc _ _ _).symm ▸ rfl

/-- Console and HTTP events are none of the preliminary stages. -/
theorem consoleOrHttp_not_prelim (e : Event) (h : e.isConsoleOrHttp = true) :
    e.isEncodePng = false ∧ e.isClipboardNew = false ∧ e.isGetImage = false ∧
    e.isReadFile = false := by
  cases e <;> simp_all [Event.isConsoleOrHttp, Event.isEncodePng,
    Event.isClipboardNew, Event.isGetImage, Event.isReadFile]

/-- Events after a successful initial exchange contain no preliminary
stage. -/
theorem postInitial_counts (env : Env) (a : Args) (fuel : Nat)
    (req : Request) :
    (postInitial env a fuel req).1.countP Event.isEncodePng = 0 ∧
    (postInitial env a fuel req).1.countP Event.isClipboardNew = 0 ∧
    (postInitial env a fuel req).1.countP Event.isGetImage = 0 ∧
    (postInitial env a fuel req).1.countP Event.isReadFile = 0 := by
  cases hp : parseOutcome (env.http 0 req) with
  | error e => rw [postInitial_err env a fuel req e hp]; exact ⟨rfl, rfl, rfl, rfl⟩
  | ok r0 =>
    obtain ⟨rest, hrest, hk⟩ := postInitial_ok_events env a fuel req r0 hp
    rw [hrest]
    have hz : ∀ (p : Event → Bool), (∀ e, e.isConsoleOrHttp = true → p e = false) →
        p (.clipboardSet r0) = false → rest.countP p = 0 := by
      intro p hcon hset
      rw [List.countP_eq_zero]
      intro e he
      rcases hk e he with hke | hke
      · simp [hcon e hke]
      · subst hke; simp [hset]
    refine ⟨?_, ?_, ?_, ?_⟩
    · simp [List.countP_cons, hz _ (fun e he => (consoleOrHttp_not_prelim e he).1) rfl,
        Event.isEncodePng]
    · simp [List.countP_cons, hz _ (fun e he => (consoleOrHttp_not_prelim e he).2.1) rfl,
        Event.isClipboardNew]
    · simp [List.countP_cons, hz _ (fun e he => (consoleOrHttp_not_prelim e he).2.2.1) rfl,
        Event.isGetImage]
    · simp [List.countP_cons, hz _ (fun e he => (consoleOrHttp_not_prelim e he).2.2.2) rfl,
        Event.isReadFile]

/-- With the clipboard image in hand, a run attempts the PNG encoding
exactly once, whatever happens later. -/
theorem run_encode_count (env : Env) (a : Args) (fuel : Nat) (img : ClipImage)
    (hc : env.clipboardNew = .ok ()) (hg : env.getImage = .ok img) :
    (run env a fuel).1.countP Event.isEncodePng = 1 := by
  cases hpng : env.encodePng img with
  | error e =>
    rw [run_encodeErr env a fuel img e hc hg hpng]
    rfl
  | ok png =>
    cases hres : resolveOutcome env a with
    | error e =>
      rw [run_resolveErr env a fuel img png e hc hg hpng hres]
      unfold resolvePrompt
      cases a.prompt_file <;> rfl
    | ok prompt =>
      rw [run_shape env a fuel img png prompt hc hg hpng hres]
      have hpost := (postInitial_counts env a fuel
        (initialRequest a (env.base64 png) prompt)).1
      dsimp only
      simp only [List.countP_append, hpost]
      unfold resolvePrompt
      cases a.prompt_file <;> rfl

/-- C1: prompt resolution precedence.  Once the clipboard stages have
succeeded, a readable `--prompt-file` makes the file contents the prompt of
the first request and `--prompt` is ignored; without `--prompt-file` the
`--prompt` value (the built-in default when the flag is absent) is the
prompt of the first request; an unreadable `--prompt-file` aborts the run
with the file-read error before any request is sent. -/
theorem prompt_resolution_precedence (env : Env) (a : Args) (fuel : Nat)
    (img : ClipImage) (png : List Nat)
    (h1 : env.clipboardNew = .ok ()) (h2 : env.getImage = .ok img)
    (h3 : env.encodePng img = .ok png) :
    (∀ p s, a.prompt_file = some p → env.readFile p = .ok s →
      (sentPrompts (run env a fuel).1).head? = some s) ∧
    (a.prompt_file = none →
      (sentPrompts (run env a fuel).1).head? = some a.prompt) ∧
    (∀ p e, a.prompt_file = some p → env.readFile p = .error e →
      (run env a fuel).2 = .exitedErr e ∧ sentPrompts (run env a fuel).1 = []) := by
  refine ⟨?_, ?_, ?_⟩
  · intro p s hp hs
    have hres : resolveOutcome env a = .ok s := by
      simp [resolveOutcome, resolvePrompt, hp, hs]
    rw [run_shape env a fuel img png s h1 h2 h3 hres]
    simp [sentPrompts, resolvePrompt, hp, initialRequest]
  · intro hp
    have hres : resolveOutcome env a = .ok a.prompt := by
      simp [resolveOutcome, resolvePrompt, hp]
    rw [run_shape env a fuel img png a.prompt h1 h2 h3 hres]
    simp [sentPrompts, resolvePrompt, hp, initialRequest]
  · intro p e hp he
    have hres : resolveOutcome env a = .error e := by
      simp [resolveOutcome, resolvePrompt, hp, he]
    rw [run_resolveErr env a fuel img png e h1 h2 h3 hres]
    simp [sentPrompts, resolvePrompt, hp]

/-- Witness for C1: with a readable prompt file and an inline `--prompt`
both set, the file contents are what the first request carries. -/
theorem prompt_resolution_precedence_witness :
    (sentPrompts
        (run okEnv { okArgs with prompt_file := some "prompt.txt" } 0).1).head?
      = some "FILETEXT" :=
  (prompt_resolution_precedence okEnv
      { okArgs with prompt_file := some "prompt.txt" } 0 okImage [1, 2, 3]
      rfl rfl rfl).1 "prompt.txt" "FILETEXT" rfl rfl

/-- C10: the clipboard is read and the image encoded before the prompt is
resolved.  A clipboard failure aborts the run with the clipboard error
regardless of the prompt flags (even an unreadable `--prompt-file` is never
reached); a file read can only ever happen after all three clipboard stages
succeeded; with a clipboard image in hand the image is encoded exactly once
per run. -/
theorem clipboard_before_prompt (env : Env) (a : Args) (fuel : Nat) :
    (∀ e, env.clipboardNew = .error e →
      run env a fuel = ([.clipboardNew], .exitedErr e)) ∧
    (∀ e, env.clipboardNew = .ok () → env.getImage = .error e →
      run env a fuel = ([.clipboardNew, .getImage], .exitedErr e)) ∧
    (∀ p, Event.readFile p ∈ (run env a fuel).1 →
      env.clipboardNew = .ok () ∧
      ∃ img png, env.getImage = .ok img ∧ env.encodePng img = .ok png) ∧
    (∀ img, env.clipboardNew = .ok () → env.getImage = .ok img →
      (run env a fuel).1.countP Event.isEncodePng = 1) := by
  refine ⟨?_, ?_, ?_, ?_⟩
  · exact fun e he => run_clipboardNewErr env a fuel e he
  · exact fun e h1 he => run_getImageErr env a fuel e h1 he
  · intro p hmem
    cases hc : env.clipboardNew with
    | error e => rw [run_clipboardNewErr env a fuel e hc] at hmem; simp at hmem
    | ok u =>
      cases u
      cases hg : env.getImage with
      | error e => rw [run_getImageErr env a fuel e hc hg] at hmem; simp at hmem
      | ok img =>
        cases hpng : env.encodePng img with
        | error e => rw [run_encodeErr env a fuel img e hc hg hpng] at hmem; simp at hmem
        | ok png => exact ⟨rfl, img, png, rfl, hpng⟩
  · exact fun img hc hg => run_encode_count env a fuel img hc hg

/-- Witness for C10: a clipboard without an image aborts with the clipboard
error even though the prompt file is unreadable too. -/
theorem clipboard_before_prompt_witness :
    run clipErrEnv { okArgs with prompt_file := some "nope.txt" } 0
      = ([.clipboardNew, .getImage], .exitedErr .clipboardGet) :=
  (clipboard_before_prompt clipErrEnv
      { okArgs with prompt_file := some "nope.txt" } 0).2.1 .clipboardGet rfl rfl

/-- C4: when the first answer of the server carries content `X`, the very first
write to standard output is the resolved prompt immediately followed by
`X` (and the newline `println` adds); nothing is printed in between or
before. -/
theorem initial_exchange_output (env : Env) (a : Args) (fuel : Nat)
    (img : ClipImage) (png : List Nat) (prompt x : String)
    (h1 : env.clipboardNew = .ok ()) (h2 : env.getImage = .ok img)
    (h3 : env.encodePng img = .ok png)
    (h4 : resolveOutcome env a = .ok prompt)
    (h5 : parseOutcome (env.http 0 (initialRequest a (env.base64 png) prompt))
      = .ok x) :
    (stdoutWrites (run env a fuel).1).head? = some (prompt ++ x ++ "\n") := by
  rw [run_shape env a fuel img png prompt h1 h2 h3 h4]
  obtain ⟨rest, hrest, _⟩ := postInitial_ok_events env a fuel _ x h5
  dsimp only
  rw [hrest]
  cases hp : a.prompt_file <;>
    simp [stdoutWrites, resolvePrompt, hp, initialRequest]

/-- Witness for C4: with inline prompt `P` and first response `R0`, the
first stdout write is `PR0` plus a newline. -/
theorem initial_exchange_output_witness :
    (stdoutWrites (run okEnv okArgs 0).1).head? = some ("P" ++ "R0" ++ "\n") :=
  initial_exchange_output okEnv okArgs 0 okImage [1, 2, 3] "P" "R0"
    rfl rfl rfl rfl rfl

/-- C3 as stated is false on the code: after the user enters the line
`hello`, `read_line` hands back `"hello\n"` with the newline still there,
so the transcript of the second request ends in `USER: hello\n\nASSISTANT:`
(doubled newline) and does not contain the substring
`USER: hello\nASSISTANT:` at all. -/
theorem interactive_turn_counterexample :
    (sentPrompts (run okEnv { okArgs with interactive := true } 1).1)[1]?
        = some "PR0USER: hello\n\nASSISTANT:" ∧
    ¬ ("USER: hello\nASSISTANT:".data <:+: "PR0USER: hello\n\nASSISTANT:".data) := by
  constructor
  · rfl
  · decide

/-- C3 amended: after one user input line `hello`, the transcript sent in
the second request is the first transcript (resolved prompt plus first
response) followed by `USER: hello\n\nASSISTANT:` — the formatted turn
keeps the newline `read_line` leaves at the end of the line, so a doubled
newline stands before `ASSISTANT:`. -/
theorem interactive_turn_formatting (env : Env) (a : Args) (fuel : Nat)
    (img : ClipImage) (png : List Nat) (prompt r0 : String)
    (h1 : env.clipboardNew = .ok ()) (h2 : env.getImage = .ok img)
    (h3 : env.encodePng img = .ok png)
    (h4 : resolveOutcome env a = .ok prompt)
    (h5 : parseOutcome (env.http 0 (initialRequest a (env.base64 png) prompt))
      = .ok r0)
    (h6 : a.interactive = true) (h7 : env.flushOk 0 = true)
    (h8 : env.readLine 0 = .ok "hello\n") :
    (sentPrompts (run env a (fuel + 1)).1)[1]? =
      some ((prompt ++ r0) ++ "USER: hello\n\nASSISTANT:") := by
  rw [run_shape env a (fuel + 1) img png prompt h1 h2 h3 h4]
  unfold postInitial
  rw [h5]
  dsimp only
  rw [if_pos h6]
  unfold loopRun loopStep
  rw [if_pos h7]
  rw [h8]
  dsimp only
  cases hcall : parseOutcome (env.http (0 + 1)
      { initialRequest a (env.base64 png) prompt with
        prompt := (initialRequest a (env.base64 png) prompt).prompt ++ r0 ++
          userTurn "hello\n" }) with
  | error e =>
    cases hp : a.prompt_file <;>
      simp [sentPrompts, resolvePrompt, hp, initialRequest, userTurn,
        String.append_assoc]
  | ok resp =>
    cases hp : a.prompt_file <;>
      simp [sentPrompts, resolvePrompt, hp, initialRequest, userTurn,
        String.append_assoc]

/-- Witness for the amended C3, on the concrete all-succeeding run. -/
theorem interactive_turn_formatting_witness :
    (sentPrompts (run okEnv { okArgs with interactive := true } 1).1)[1]? =
      some (("P" ++ "R0") ++ "USER: hello\n\nASSISTANT:") :=
  interactive_turn_formatting okEnv { okArgs with interactive := true } 0
    okImage [1, 2, 3] "P" "R0" rfl rfl rfl rfl rfl rfl rfl rfl

/-- The events after a successful initial exchange post either nothing or
exactly what the loop posts, starting from the transcript extended by the
first response. -/
theorem sentPrompts_postInitial_ok (env : Env) (a : Args) (fuel : Nat)
    (req : Request) (r0 : String)
    (h : parseOutcome (env.http 0 req) = .ok r0) :
    sentPrompts (postInitial env a fuel req).1 = [] ∨
    sentPrompts (postInitial env a fuel req).1 =
      sentPrompts (loopRun env (endpointUrl a) fuel 0
        { req with prompt := req.prompt ++ r0 }).1 := by
  unfold postInitial
  rw [h]
  dsimp only
  split
  · right
    simp [sentPrompts]
  · split
    · split <;> (left; simp [sentPrompts])
    · left
      simp [sentPrompts]

/-- C8: the transcript only ever grows.  Each completed interactive
iteration turns transcript `t` into `t ++ (userTurn line ++ resp)` — the
formatted user turn followed by the response — so every earlier transcript
value is a prefix of every later one; and each prompt the program sends
extends the previously sent one. -/
theorem transcript_monotone_growth (env : Env) (a : Args) (fuel : Nat)
    (img : ClipImage) (png : List Nat) (prompt r0 : String)
    (h1 : env.clipboardNew = .ok ()) (h2 : env.getImage = .ok img)
    (h3 : env.encodePng img = .ok png)
    (h4 : resolveOutcome env a = .ok prompt)
    (h5 : parseOutcome (env.http 0 (initialRequest a (env.base64 png) prompt))
      = .ok r0) :
    List.Chain (fun t t' => ∃ line resp, t' = t ++ (userTurn line ++ resp))
      (prompt ++ r0)
      (loopTranscripts env (endpointUrl a) fuel 0
        { initialRequest a (env.base64 png) prompt with prompt := prompt ++ r0 }) ∧
    List.Chain' (fun t t' => ∃ s, t' = t ++ s)
      (sentPrompts (run env a fuel).1) := by
  constructor
  · exact loopTranscripts_chain env (endpointUrl a) fuel 0
      { initialRequest a (env.base64 png) prompt with prompt := prompt ++ r0 }
  · rw [run_shape env a fuel img png prompt h1 h2 h3 h4]
    dsimp only
    rcases sentPrompts_postInitial_ok env a fuel
        (initialRequest a (env.base64 png) prompt) r0 h5 with hsp | hsp <;>
      rw [sentPrompts_append, sentPrompts_append, hsp] <;>
      cases hp : a.prompt_file <;>
      simp only [sentPrompts, resolvePrompt, hp, List.filterMap_cons,
        List.filterMap_nil, List.nil_append, List.singleton_append]
    · exact List.chain'_singleton _
    · exact List.chain'_singleton _
    · exact chainAppend_weaken _ _ r0 _ rfl
        (loopRun_sentPrompts_chain env (endpointUrl a) fuel 0
          { initialRequest a (env.base64 png) prompt with
            prompt := (initialRequest a (env.base64 png) prompt).prompt ++ r0 })
    · exact chainAppend_weaken _ _ r0 _ rfl
        (loopRun_sentPrompts_chain env (endpointUrl a) fuel 0
          { initialRequest a (env.base64 png) prompt with
            prompt := (initialRequest a (env.base64 png) prompt).prompt ++ r0 })

/-- Witness for C8 on the concrete all-succeeding interactive run. -/
theorem transcript_monotone_growth_witness :
    List.Chain (fun t t' => ∃ line resp, t' = t ++ (userTurn line ++ resp))
      ("P" ++ "R0")
      (loopTranscripts okEnv (endpointUrl { okArgs with interactive := true }) 1 0
        { initialRequest { okArgs with interactive := true }
            (okEnv.base64 [1, 2, 3]) "P" with prompt := "P" ++ "R0" }) ∧
    List.Chain' (fun t t' => ∃ s, t' = t ++ s)
      (sentPrompts (run okEnv { okArgs with interactive := true } 1).1) :=
  transcript_monotone_growth okEnv { okArgs with interactive := true } 1
    okImage [1, 2, 3] "P" "R0" rfl rfl rfl rfl rfl

/-- Requests found after a successful initial exchange are either none or
exactly the posts of the loop. -/
theorem sentRequests_postInitial_ok (env : Env) (a : Args) (fuel : Nat)
    (req : Request) (r0 : String)
    (h : parseOutcome (env.http 0 req) = .ok r0) :
    sentRequests (postInitial env a fuel req).1 = [] ∨
    sentRequests (postInitial env a fuel req).1 =
      sentRequests (loopRun env (endpointUrl a) fuel 0
        { req with prompt := req.prompt ++ r0 }).1 := by
  unfold postInitial
  rw [h]
  dsimp only
  split
  · right
    simp [sentRequests]
  · split
    · split <;> (left; simp [sentRequests])
    · left
      simp [sentRequests]

/-- C2: request-payload invariant.  Every request a run sends — the initial
one and every interactive turn — carries the single image record built from
the one base64 encoding, with id 1, cache_prompt true, the stop list
`["USER:"]`, and the temperature and n_predict taken unchanged from the
arguments; and the PNG encoding producing that base64 string happens
exactly once per run. -/
theorem request_payload_invariant (env : Env) (a : Args) (fuel : Nat)
    (img : ClipImage) (png : List Nat)
    (h1 : env.clipboardNew = .ok ()) (h2 : env.getImage = .ok img)
    (h3 : env.encodePng img = .ok png) :
    (∀ r ∈ sentRequests (run env a fuel).1,
      r.image_data = [{ data := env.base64 png, id := 1 }] ∧
      r.cache_prompt = true ∧ r.stop = ["USER:"] ∧
      r.temperature = a.temperature ∧ r.n_predict = a.n_predict) ∧
    (run env a fuel).1.countP Event.isEncodePng = 1 := by
  constructor
  · intro r hr
    cases hres : resolveOutcome env a with
    | error e =>
      rw [run_resolveErr env a fuel img png e h1 h2 h3 hres] at hr
      cases hp : a.prompt_file <;> simp [sentRequests, resolvePrompt, hp] at hr
    | ok prompt =>
      rw [run_shape env a fuel img png prompt h1 h2 h3 hres] at hr
      dsimp only at hr
      rw [sentRequests_append, sentRequests_append] at hr
      have hpre : sentRequests ([Event.clipboardNew, .getImage, .encodePng]
          ++ (resolvePrompt env a).1) = [] := by
        cases hp : a.prompt_file <;> simp [sentRequests, resolvePrompt, hp]
      rw [hpre] at hr
      cases hpost : parseOutcome (env.http 0 (initialRequest a (env.base64 png) prompt)) with
      | error e =>
        rw [postInitial_err env a fuel _ e hpost] at hr
        simp [sentRequests] at hr
        subst hr
        exact ⟨rfl, rfl, rfl, rfl, rfl⟩
      | ok r0 =>
        rcases sentRequests_postInitial_ok env a fuel
            (initialRequest a (env.base64 png) prompt) r0 hpost with hsp | hsp <;>
          rw [hsp] at hr
        · simp [sentRequests] at hr
          subst hr
          exact ⟨rfl, rfl, rfl, rfl, rfl⟩
        · simp only [sentRequests, List.nil_append, List.filterMap_cons,
            List.filterMap_nil] at hr
          rcases List.mem_cons.mp hr with hr | hr
          · subst hr
            exact ⟨rfl, rfl, rfl, rfl, rfl⟩
          · obtain ⟨ht, hn, hcp, hid, hst⟩ := loopRun_requests_meta env
              (endpointUrl a) fuel 0
              { initialRequest a (env.base64 png) prompt with
                prompt := (initialRequest a (env.base64 png) prompt).prompt ++ r0 }
              r hr
            exact ⟨hid, hcp, hst, ht, hn⟩
  · exact run_encode_count env a fuel img h1 h2

/-- Witness for C2 on the concrete all-succeeding interactive run. -/
theorem request_payload_invariant_witness :
    (∀ r ∈ sentRequests (run okEnv { okArgs with interactive := true } 1).1,
      r.image_data = [{ data := okEnv.base64 [1, 2, 3], id := 1 }] ∧
      r.cache_prompt = true ∧ r.stop = ["USER:"] ∧
      r.temperature = ({ okArgs with interactive := true } : Args).temperature ∧
      r.n_predict = ({ okArgs with interactive := true } : Args).n_predict) ∧
    (run okEnv { okArgs with interactive := true } 1).1.countP Event.isEncodePng = 1 :=
  request_payload_invariant okEnv { okArgs with interactive := true } 1
    okImage [1, 2, 3] rfl rfl rfl

/-- The interactive loop never writes to the clipboard. -/
theorem clipboardSets_loopRun (env : Env) (url : String) (fuel : Nat)
    (i : Nat) (req : Request) :
    clipboardSets (loopRun env url fuel i req).1 = [] := by
  rw [clipboardSets, List.filterMap_eq_nil_iff]
  intro e he
  have hk := loopRun_events env url fuel i req e he
  cases e <;> first
    | rfl
    | exact absurd hk (by simp [Event.isConsoleOrHttp])

/-- Texts written to the clipboard after the initial exchange: exactly the
first response when the run is a successful non-interactive copy-back, and
nothing otherwise. -/
theorem clipboardSets_postInitial (env : Env) (a : Args) (fuel : Nat)
    (req : Request) :
    clipboardSets (postInitial env a fuel req).1 =
      match parseOutcome (env.http 0 req) with
      | .error _ => []
      | .ok r0 =>
        if a.interactive = false ∧ a.copy_back = true then [r0] else [] := by
  cases hpost : parseOutcome (env.http 0 req) with
  | error e =>
    rw [postInitial_err env a fuel req e hpost]
    rfl
  | ok r0 =>
    unfold postInitial
    rw [hpost]
    dsimp only
    cases hi : a.interactive with
    | true =>
      rw [if_pos rfl]
      dsimp only
      have hcons : clipboardSets (Event.stdoutWrite (req.prompt ++ r0 ++ "\n")
            :: (loopRun env (endpointUrl a) fuel 0
              { req with prompt := req.prompt ++ r0 }).1)
          = clipboardSets (loopRun env (endpointUrl a) fuel 0
              { req with prompt := req.prompt ++ r0 }).1 := rfl
      rw [hcons, clipboardSets_loopRun]
      simp
    | false =>
      cases hcb : a.copy_back with
      | true =>
        cases hst : env.setText r0 with
        | error e => simp [clipboardSets]
        | ok u => simp [clipboardSets]
      | false => simp [clipboardSets]

/-- Texts written to the clipboard over a whole run. -/
theorem clipboardSets_run (env : Env) (a : Args) (fuel : Nat) :
    clipboardSets (run env a fuel).1 =
      match initialOutcome env a with
      | .error _ => []
      | .ok r0 =>
        if a.interactive = false ∧ a.copy_back = true then [r0] else [] := by
  unfold initialOutcome
  cases hc : env.clipboardNew with
  | error e => rw [run_clipboardNewErr env a fuel e hc]; rfl
  | ok u =>
    cases u
    dsimp only
    cases hg : env.getImage with
    | error e => rw [run_getImageErr env a fuel e hc hg]; rfl
    | ok img =>
      dsimp only
      cases hpng : env.encodePng img with
      | error e => rw [run_encodeErr env a fuel img e hc hg hpng]; rfl
      | ok png =>
        dsimp only
        cases hres : resolveOutcome env a with
        | error e =>
          rw [run_resolveErr env a fuel img png e hc hg hpng hres]
          cases hp : a.prompt_file <;> simp [clipboardSets, resolvePrompt, hp]
        | ok prompt =>
          rw [run_shape env a fuel img png prompt hc hg hpng hres]
          dsimp only
          rw [clipboardSets_append, clipboardSets_append,
            clipboardSets_postInitial env a fuel]
          cases hp : a.prompt_file <;>
            simp [clipboardSets, resolvePrompt, hp]

/-- C6: copy-back semantics and frame.  A run writes to the clipboard at
most once; never in interactive mode (copy_back is ignored there); never
when copy_back is unset; any written text is the first response of a
successful non-interactive copy-back run, and such a run writes exactly
that response. -/
theorem copy_back_semantics (env : Env) (a : Args) (fuel : Nat) :
    (clipboardSets (run env a fuel).1).length ≤ 1 ∧
    (a.interactive = true → clipboardSets (run env a fuel).1 = []) ∧
    (a.copy_back = false → clipboardSets (run env a fuel).1 = []) ∧
    (∀ s, s ∈ clipboardSets (run env a fuel).1 →
      a.interactive = false ∧ a.copy_back = true ∧ initialOutcome env a = .ok s) ∧
    (∀ r0, initialOutcome env a = .ok r0 → a.interactive = false →
      a.copy_back = true → clipboardSets (run env a fuel).1 = [r0]) := by
  refine ⟨?_, ?_, ?_, ?_, ?_⟩ <;> rw [clipboardSets_run env a fuel]
  · cases initialOutcome env a with
    | error e => simp
    | ok r0 =>
      dsimp only
      split <;> simp
  · intro hi
    cases initialOutcome env a with
    | error e => rfl
    | ok r0 => simp [hi]
  · intro hcb
    cases initialOutcome env a with
    | error e => rfl
    | ok r0 => simp [hcb]
  · intro s hs
    revert hs
    cases hio : initialOutcome env a with
    | error e => intro hs; simp at hs
    | ok r0 =>
      dsimp only
      split
      · rename_i hcond
        intro hs
        rw [List.mem_singleton] at hs
        subst hs
        exact ⟨hcond.1, hcond.2, rfl⟩
      · intro hs
        simp at hs
  · intro r0 hio hi hcb
    rw [hio]
    simp [hi, hcb]

/-- Witness for C6: a successful non-interactive copy-back run writes the
first response to the clipboard. -/
theorem copy_back_semantics_witness :
    clipboardSets (run okEnv { okArgs with copy_back := true } 0).1 = ["R0"] :=
  (copy_back_semantics okEnv { okArgs with copy_back := true } 0).2.2.2.2
    "R0" rfl rfl rfl

/-- An interactive run never ends with a clean exit. -/
theorem run_interactive_ne_exited0 (env : Env) (a : Args) (fuel : Nat)
    (hi : a.interactive = true) : (run env a fuel).2 ≠ .exited0 := by
  cases hc : env.clipboardNew with
  | error e => rw [run_clipboardNewErr env a fuel e hc]; simp
  | ok u =>
    cases u
    cases hg : env.getImage with
    | error e => rw [run_getImageErr env a fuel e hc hg]; simp
    | ok img =>
      cases hpng : env.encodePng img with
      | error e => rw [run_encodeErr env a fuel img e hc hg hpng]; simp
      | ok png =>
        cases hres : resolveOutcome env a with
        | error e =>
          rw [run_resolveErr env a fuel img png e hc hg hpng hres]
          simp
        | ok prompt =>
          rw [run_shape env a fuel img png prompt hc hg hpng hres]
          dsimp only
          cases hpost : parseOutcome
              (env.http 0 (initialRequest a (env.base64 png) prompt)) with
          | error e =>
            rw [postInitial_err env a fuel _ e hpost]
            simp
          | ok r0 =>
            unfold postInitial
            rw [hpost]
            dsimp only
            rw [if_pos hi]
            dsimp only
            exact loopRun_ne_exited0 env (endpointUrl a) fuel 0 _

/-- Each preliminary stage is attempted at most once in any run. -/
theorem run_prelim_counts (env : Env) (a : Args) (fuel : Nat) :
    (run env a fuel).1.countP Event.isClipboardNew ≤ 1 ∧
    (run env a fuel).1.countP Event.isGetImage ≤ 1 ∧
    (run env a fuel).1.countP Event.isEncodePng ≤ 1 ∧
    (run env a fuel).1.countP Event.isReadFile ≤ 1 := by
  cases hc : env.clipboardNew with
  | error e =>
    rw [run_clipboardNewErr env a fuel e hc]
    exact ⟨Nat.le_refl 1, Nat.zero_le 1, Nat.zero_le 1, Nat.zero_le 1⟩
  | ok u =>
    cases u
    cases hg : env.getImage with
    | error e =>
      rw [run_getImageErr env a fuel e hc hg]
      exact ⟨Nat.le_refl 1, Nat.le_refl 1, Nat.zero_le 1, Nat.zero_le 1⟩
    | ok img =>
      cases hpng : env.encodePng img with
      | error e =>
        rw [run_encodeErr env a fuel img e hc hg hpng]
        exact ⟨Nat.le_refl 1, Nat.le_refl 1, Nat.le_refl 1, Nat.zero_le 1⟩
      | ok png =>
        cases hres : resolveOutcome env a with
        | error e =>
          rw [run_resolveErr env a fuel img png e hc hg hpng hres]
          cases hp : a.prompt_file <;>
            simp [resolvePrompt, hp, List.countP_cons, List.countP_nil,
              Event.isClipboardNew, Event.isGetImage, Event.isEncodePng,
              Event.isReadFile]
        | ok prompt =>
          rw [run_shape env a fuel img png prompt hc hg hpng hres]
          dsimp only
          obtain ⟨he, hcn, hgi, hrf⟩ := postInitial_counts env a fuel
            (initialRequest a (env.base64 png) prompt)
          refine ⟨?_, ?_, ?_, ?_⟩ <;>
            simp only [List.countP_append, he, hcn, hgi, hrf] <;>
            cases hp : a.prompt_file <;>
            simp [resolvePrompt, hp, List.countP_cons, List.countP_nil,
              Event.isClipboardNew, Event.isGetImage, Event.isEncodePng,
              Event.isReadFile]

/-- C5: fatal-error propagation.  A run exits cleanly exactly when it is
non-interactive, every stage through the first completion call succeeded,
and — when copy-back is set — the clipboard write succeeded; a propagated
error exits with status 1 (the message having gone to the error stream);
and no preliminary stage is ever retried: each is attempted at most once
per run. -/
theorem fatal_error_propagation (env : Env) (a : Args) (fuel : Nat) :
    ((run env a fuel).2 = .exited0 ↔
      (a.interactive = false ∧ ∃ r0, initialOutcome env a = .ok r0 ∧
        (a.copy_back = true → env.setText r0 = .ok ()))) ∧
    (∀ e, (run env a fuel).2 = .exitedErr e →
      exitCode (run env a fuel).2 = some 1) ∧
    (run env a fuel).1.countP Event.isClipboardNew ≤ 1 ∧
    (run env a fuel).1.countP Event.isGetImage ≤ 1 ∧
    (run env a fuel).1.countP Event.isEncodePng ≤ 1 ∧
    (run env a fuel).1.countP Event.isReadFile ≤ 1 := by
  refine ⟨?_, ?_, (run_prelim_counts env a fuel).1,
    (run_prelim_counts env a fuel).2.1, (run_prelim_counts env a fuel).2.2.1,
    (run_prelim_counts env a fuel).2.2.2⟩
  · unfold initialOutcome
    cases hc : env.clipboardNew with
    | error e => rw [run_clipboardNewErr env a fuel e hc]; simp
    | ok u =>
      cases u
      dsimp only
      cases hg : env.getImage with
      | error e => rw [run_getImageErr env a fuel e hc hg]; simp
      | ok img =>
        dsimp only
        cases hpng : env.encodePng img with
        | error e => rw [run_encodeErr env a fuel img e hc hg hpng]; simp
        | ok png =>
          dsimp only
          cases hres : resolveOutcome env a with
          | error e =>
            rw [run_resolveErr env a fuel img png e hc hg hpng hres]
            simp
          | ok prompt =>
            rw [run_shape env a fuel img png prompt hc hg hpng hres]
            dsimp only
            cases hpost : parseOutcome
                (env.http 0 (initialRequest a (env.base64 png) prompt)) with
            | error e =>
              rw [postInitial_err env a fuel _ e hpost]
              simp
            | ok r0 =>
              unfold postInitial
              rw [hpost]
              dsimp only
              cases hi : a.interactive with
              | true =>
                rw [if_pos rfl]
                dsimp only
                constructor
                · intro hrun
                  exact absurd hrun (loopRun_ne_exited0 env (endpointUrl a) fuel 0 _)
                · rintro ⟨hfalse, -⟩
                  exact absurd hfalse (by simp)
              | false =>
                rw [if_neg (by simp)]
                cases hcb : a.copy_back with
                | true =>
                  cases hst : env.setText r0 with
                  | error e =>
                    rw [if_pos rfl]
                    dsimp only
                    constructor
                    · intro hrun
                      exact absurd hrun (by simp)
                    · rintro ⟨-, r1, hr1, hset⟩
                      injection hr1 with hr1
                      subst hr1
                      rw [hset rfl] at hst
                      exact absurd hst (by simp)
                  | ok u =>
                    cases u
                    rw [if_pos rfl]
                    dsimp only
                    exact ⟨fun _ => ⟨rfl, r0, rfl, fun _ => hst⟩, fun _ => rfl⟩
                | false =>
                  rw [if_neg (by simp)]
                  exact ⟨fun _ => ⟨rfl, r0, rfl, fun hcb1 => absurd hcb1 (by simp)⟩,
                    fun _ => rfl⟩
  · intro e hrun
    rw [hrun]
    rfl

/-- The stage list of C5 is too broad at one point: a 307 response — a
non-2xx HTTP status, handed back to the caller unchanged since ureq does
not follow 307 for a POST — with a parseable body is no failure at all, so
the run completes and exits with status 0 rather than aborting. -/
theorem non_2xx_exit0_counterexample :
    exitCode (run tempRedirectEnv okArgs 0).2 = some 0 ∧
    ¬ (200 ≤ 307 ∧ 307 ≤ 299) := by
  constructor
  · rfl
  · decide

/-- Witness for C5: a failing clipboard handle exits with status 1. -/
theorem fatal_error_propagation_witness :
    exitCode (run newErrEnv okArgs 0).2 = some 1 :=
  (fatal_error_propagation newErrEnv okArgs 0).2.1 .clipboardNew rfl

/-- While the console and the server keep answering — in particular at end
of input, where `read_line` succeeds with an empty line — the loop just
keeps running. -/
theorem loopRun_all_ok_running (env : Env) (url : String)
    (hok : ∀ i r, ∃ s, parseOutcome (env.http i r) = .ok s)
    (hf : ∀ i, env.flushOk i = true)
    (hl : ∀ i, env.readLine i = .ok "") (fuel : Nat) :
    ∀ (i : Nat) (req : Request),
      ∃ req', (loopRun env url fuel i req).2 = .running req' := by
  induction fuel with
  | zero => intro i req; exact ⟨req, rfl⟩
  | succ n ih =>
    intro i req
    obtain ⟨s, hs⟩ := hok (i + 1) { req with prompt := req.prompt ++ userTurn "" }
    unfold loopRun loopStep
    rw [if_pos (hf i), hl i]
    dsimp only
    rw [hs]
    dsimp only
    exact ih (i + 1) _

/-- C7 amended: the interactive loop repeats with no explicit quit command
and no exit path of its own — an interactive run never exits cleanly, only
a propagated I/O or network failure (or external termination) ends it.
End of input, however, does not terminate the loop: `read_line` then
succeeds with an empty line and the loop keeps issuing requests. -/
theorem interactive_loop_termination (env : Env) (a : Args) (fuel : Nat)
    (hi : a.interactive = true) :
    (run env a fuel).2 ≠ .exited0 ∧
    (env.clipboardNew = .ok () →
      ∀ img, env.getImage = .ok img →
      ∀ png, env.encodePng img = .ok png →
      ∀ prompt, resolveOutcome env a = .ok prompt →
      (∀ i r, ∃ s, parseOutcome (env.http i r) = .ok s) →
      (∀ i, env.flushOk i = true) →
      (∀ i, env.readLine i = .ok "") →
      ∃ req, (run env a fuel).2 = .running req) := by
  constructor
  · exact run_interactive_ne_exited0 env a fuel hi
  · intro hc img hg png hpng prompt hres hok hf hl
    obtain ⟨r0, hpost⟩ := hok 0 (initialRequest a (env.base64 png) prompt)
    rw [run_shape env a fuel img png prompt hc hg hpng hres]
    dsimp only
    unfold postInitial
    rw [hpost]
    dsimp only
    rw [if_pos hi]
    dsimp only
    exact loopRun_all_ok_running env (endpointUrl a) hok hf hl fuel 0 _

/-- The end-of-input example of C7 is false on the code: with standard input at
end of input and a healthy server, the run is still going three iterations
later (no exit has happened) and four requests have gone out. -/
theorem interactive_eof_counterexample :
    exitCode (run eofEnv { okArgs with interactive := true } 3).2 = none ∧
    (sentPrompts (run eofEnv { okArgs with interactive := true } 3).1).length = 4 := by
  constructor
  · rfl
  · rfl

/-- Witness for the amended C7 on the concrete end-of-input run. -/
theorem interactive_loop_termination_witness :
    (run eofEnv { okArgs with interactive := true } 2).2 ≠ .exited0 ∧
    ∃ req, (run eofEnv { okArgs with interactive := true } 2).2 = .running req := by
  have h := interactive_loop_termination eofEnv { okArgs with interactive := true } 2 rfl
  exact ⟨h.1, h.2 rfl okImage rfl [1, 2, 3] rfl "P" rfl
    (fun i r => ⟨"R" ++ toString i, rfl⟩) (fun i => rfl) (fun i => rfl)⟩

/-- Looking a key up past a block that does not contain it. -/
theorem lookupField_append (pre post : List (String × Json)) (k : String)
    (h : lookupField pre k = none) :
    lookupField (pre ++ post) k = lookupField post k := by
  induction pre with
  | nil => rfl
  | cons hd tl ih =>
    cases hd with
    | mk k1 v1 =>
      have h' : (if k1 = k then some v1 else lookupField tl k) = none := h
      show (if k1 = k then some v1 else lookupField (tl ++ post) k)
        = lookupField post k
      by_cases hk : k1 = k
      · rw [if_pos hk] at h'
        exact absurd h' (by simp)
      · rw [if_neg hk] at h'
        rw [if_neg hk]
        exact ih h'

/-- Every POST the loop performs goes to the one URL of the loop. -/
theorem loopRun_post_urls (env : Env) (url : String) (fuel : Nat) :
    ∀ (i : Nat) (req : Request) (u : String) (r : Request),
      Event.httpPost u r ∈ (loopRun env url fuel i req).1 → u = url := by
  induction fuel with
  | zero => intro i req u r h; simp [loopRun] at h
  | succ n ih =>
    intro i req u r h
    unfold loopRun at h
    revert h
    cases hstep : loopStep env url i req with
    | mk ev res =>
      cases res with
      | error er =>
        intro h
        dsimp only at h
        rcases loopStep_err_shape env url i req er ev hstep with
            he | he | ⟨line, _, he⟩ <;>
          subst he <;> simp at h
        exact h.1
      | ok req1 =>
        intro h
        dsimp only at h
        obtain ⟨line, resp, _, _, _, _, hev⟩ :=
          loopStep_ok_shape env url i req req1 ev hstep
        subst hev
        rw [List.mem_append] at h
        rcases h with h | h
        · simp at h
          exact h.1
        · exact ih (i + 1) req1 u r h

/-- Every POST after the initial exchange goes to the configured endpoint. -/
theorem postInitial_post_urls (env : Env) (a : Args) (fuel : Nat)
    (req : Request) (u : String) (r : Request)
    (h : Event.httpPost u r ∈ (postInitial env a fuel req).1) :
    u = endpointUrl a := by
  revert h
  unfold postInitial
  cases hpost : parseOutcome (env.http 0 req) with
  | error e => intro h; simp at h
  | ok r0 =>
    dsimp only
    split
    · intro h
      rcases List.mem_cons.mp h with h | h
      · exact absurd h (by simp)
      · exact loopRun_post_urls env (endpointUrl a) fuel 0 _ u r h
    · split
      · split <;> (intro h; simp at h)
      · intro h; simp at h

/-- C9 amended: each completion call issues exactly one POST, and every
POST of a run goes to `http://<host>:<port>/completion`; the call returns
exactly the content string field of the JSON response, ignoring all other
fields; it fails with an error value (the model is total — no crash) on
connection failure, on an HTTP status of 400 or above (the ureq error
threshold), or on a delivered body that is not JSON with a content string
field — which by the 204/304 framing rule is always the case for those two
statuses, whose bodies arrive empty.  A delivered status below 400 is not
by itself an error: a non-2xx status that can carry a body, such as a 307
the transport hands back unchanged, succeeds when the body parses. -/
theorem completion_client_contract (env : Env) (a : Args) (fuel idx : Nat)
    (url : String) (req : Request) :
    (requestCall env idx url req).1 = [.httpPost url req] ∧
    endpointUrl a = "http://" ++ a.host ++ ":" ++ toString a.port ++ "/completion" ∧
    (∀ u r, Event.httpPost u r ∈ (run env a fuel).1 → u = endpointUrl a) ∧
    (env.http idx req = .connFail →
      (requestCall env idx url req).2 = .error .network) ∧
    (∀ status body, env.http idx req = .reply status body → 400 ≤ status →
      (requestCall env idx url req).2 = .error (.httpStatus status)) ∧
    (∀ status, env.http idx req = .reply status none → status < 400 →
      (requestCall env idx url req).2 = .error .jsonParse) ∧
    (∀ status body, env.http idx req = .reply status body → status < 400 →
      (status = 204 ∨ status = 304) →
      (requestCall env idx url req).2 = .error .jsonParse) ∧
    (∀ status pre post s,
      env.http idx req
        = .reply status (some (.obj (pre ++ ("content", .str s) :: post))) →
      status < 400 → ¬ (status = 204 ∨ status = 304) →
      lookupField pre "content" = none →
      (requestCall env idx url req).2 = .ok s) ∧
    (∀ status fields, env.http idx req = .reply status (some (.obj fields)) →
      status < 400 → lookupField fields "content" = none →
      (requestCall env idx url req).2 = .error .jsonParse) := by
  refine ⟨rfl, rfl, ?_, ?_, ?_, ?_, ?_, ?_, ?_⟩
  · intro u r hmem
    cases hc : env.clipboardNew with
    | error e => rw [run_clipboardNewErr env a fuel e hc] at hmem; simp at hmem
    | ok pu =>
      cases pu
      cases hg : env.getImage with
      | error e => rw [run_getImageErr env a fuel e hc hg] at hmem; simp at hmem
      | ok img =>
        cases hpng : env.encodePng img with
        | error e =>
          rw [run_encodeErr env a fuel img e hc hg hpng] at hmem
          simp at hmem
        | ok png =>
          cases hres : resolveOutcome env a with
          | error e =>
            rw [run_resolveErr env a fuel img png e hc hg hpng hres] at hmem
            cases hp : a.prompt_file <;>
              simp [resolvePrompt, hp] at hmem
          | ok prompt =>
            rw [run_shape env a fuel img png prompt hc hg hpng hres] at hmem
            dsimp only at hmem
            rw [List.mem_append, List.mem_append] at hmem
            rcases hmem with (hmem | hmem) | hmem
            · cases hp : a.prompt_file <;>
                simp [resolvePrompt, hp] at hmem
            · simp at hmem
              exact hmem.1
            · exact postInitial_post_urls env a fuel _ u r hmem
  · intro h
    show parseOutcome (env.http idx req) = .error .network
    rw [h]
    rfl
  · intro status body h hst
    show parseOutcome (env.http idx req) = .error (.httpStatus status)
    rw [h]
    unfold parseOutcome sendJson
    dsimp only
    rw [if_pos hst]
  · intro status h hst
    show parseOutcome (env.http idx req) = .error .jsonParse
    rw [h]
    unfold parseOutcome sendJson
    dsimp only
    rw [if_neg (Nat.not_le.mpr hst)]
    dsimp only
    rw [show framedBody status none = none from by simp [framedBody]]
    rfl
  · intro status body h hst hfr
    show parseOutcome (env.http idx req) = .error .jsonParse
    rw [h]
    unfold parseOutcome sendJson
    dsimp only
    rw [if_neg (Nat.not_le.mpr hst)]
    dsimp only
    unfold framedBody
    rw [if_pos hfr]
    rfl
  · intro status pre post s h hst hfr hpre
    show parseOutcome (env.http idx req) = .ok s
    rw [h]
    unfold parseOutcome sendJson
    dsimp only
    rw [if_neg (Nat.not_le.mpr hst)]
    dsimp only
    unfold framedBody
    rw [if_neg hfr]
    dsimp only [intoJson, parseResponse]
    rw [lookupField_append pre (("content", .str s) :: post) "content" hpre]
    unfold lookupField
    rw [if_pos rfl]
  · intro status fields h hst hlk
    show parseOutcome (env.http idx req) = .error .jsonParse
    rw [h]
    unfold parseOutcome sendJson
    dsimp only
    rw [if_neg (Nat.not_le.mpr hst)]
    dsimp only
    unfold framedBody
    by_cases hfr : status = 204 ∨ status = 304
    · rw [if_pos hfr]
      rfl
    · rw [if_neg hfr]
      dsimp only [intoJson, parseResponse]
      rw [hlk]

/-- C9 as stated is false on the code: ureq only turns statuses of 400 and
above into errors, so a 307 — not a 2xx status, delivered to the caller
unchanged because ureq does not follow 307 for a POST, and free to carry a
body — whose body parses with a content field makes the call succeed
instead of failing. -/
theorem non_2xx_status_counterexample :
    (requestCall tempRedirectEnv 0 (endpointUrl okArgs)
        (initialRequest okArgs "QUJD" "P")).2 = .ok "X" ∧
    ¬ (200 ≤ 307 ∧ 307 ≤ 299) := by
  constructor
  · rfl
  · decide

/-- Witness for the amended C9: a 500 response makes the call fail with the
status error. -/
theorem completion_client_contract_witness :
    (requestCall serverErrEnv 0 (endpointUrl okArgs)
        (initialRequest okArgs "QUJD" "P")).2 = .error (.httpStatus 500) :=
  (completion_client_contract serverErrEnv okArgs 0 0 (endpointUrl okArgs)
      (initialRequest okArgs "QUJD" "P")).2.2.2.2.1 500 none rfl (by decide)

end Cliplm
